import Mathlib

/-!
Shallow embedding of the Smart-Shopping storefront core (src/orders/views.py
and, where NOTED as modelled from the spec, the serializer code of
src/orders/serializers.py that is not among the sources).

Conventions of the embedding:
  - Python integers become Lean Int (quantities, stock counters, prices);
    database identifiers become Nat.
  - A Django queryset per user becomes an explicit list parameter; the cart
    of the caller is an Option (List CartItem): none stands for "no Cart row
    exists for this user", some items for an existing cart with those lines.
  - Cart.objects.get_or_create is Option.getD []; get_object_or_404 is a
    match that returns the error notFound on none.
  - An HTTP error response becomes Except.error of an ApiError; a handler
    that returns an error before calling save() leaves the database
    unchanged, which the pure model renders by returning no new state on
    the error path.
-/

namespace SmartShopping

/-- A catalog product as the cart and order code reads it: identifier, name,
unit price and the available stock counter (products.models.Product). -/
structure Product where
  id : Nat
  name : String
  price : Int
  stock_quantity : Int
  deriving DecidableEq

/-- One cart line: row identifier, referenced product and quantity
(orders.models.CartItem; the (cart, product) pair is unique). -/
structure CartItem where
  id : Nat
  product_id : Nat
  quantity : Int
  deriving DecidableEq

/-- Order lifecycle states (orders.models.Order.status). -/
inductive OrderStatus where
  | pending
  | processing
  | shipped
  | delivered
  | cancelled
  deriving DecidableEq

/-- An immutable order line snapshotted from a cart line at creation time. -/
structure OrderLine where
  product_id : Nat
  product_name : String
  unit_price : Int
  quantity : Int
  deriving DecidableEq

/-- An order: owner, status, immutable lines and the total frozen at
creation (orders.models.Order). -/
structure Order where
  id : Nat
  user_id : Nat
  status : OrderStatus
  lines : List OrderLine
  total : Int
  deriving DecidableEq

/-- The resolved request user the excluded layers hand to the core: an
identifier and the is_admin flag. -/
structure User where
  id : Nat
  is_admin : Bool
  deriving DecidableEq

/-- The error taxonomy of the spec; each HTTP error response of the views
maps onto one constructor. -/
inductive ApiError where
  | invalidQuantity
  | insufficientStock
  | notFound
  | emptyCart
  | forbidden
  | invalidTransition
  deriving DecidableEq

/-- Look a product up by identifier (Product.objects.get / a foreign-key
dereference). -/
def findProduct (ps : List Product) (pid : Nat) : Option Product :=
  ps.find? (fun p => p.id == pid)

/-- The stock counter the views read through cart_item.product.stock_quantity. -/
def stockOf (ps : List Product) (pid : Nat) : Int :=
  match findProduct ps pid with
  | some p => p.stock_quantity
  | none => 0

/-- Modelled from the spec: the Inventory Ledger check operation, section 4.1
(non-mutating read: available stock covers the quantity). The ledger code is
in src/orders/serializers.py and src/products/models.py, which are not among
the sources. -/
def check (ps : List Product) (pid : Nat) (q : Int) : Bool :=
  match findProduct ps pid with
  | some p => decide (q ≤ p.stock_quantity)
  | none => false

/-- Modelled from the spec: the validation CartItemSerializer performs before
CartViewSet.add_item touches the cart (src/orders/serializers.py is not among
the sources). Section 4.2: quantity must be a positive integer, zero or
negative fails with InvalidQuantity; a new line is created with quantity only
after check(product_id, quantity) passes, else InsufficientStock; a reference
to a product that does not exist is rejected (rendered notFound). -/
def cartItemValidate (ps : List Product) (pid : Nat) (q : Int) : Option ApiError :=
  if q ≤ 0 then some .invalidQuantity
  else if (findProduct ps pid).isNone then some .notFound
  else if check ps pid q then none
  else some .insufficientStock

/-- Update the quantity of every cart row whose id matches (the effect of
cart_item.save() after assigning cart_item.quantity). -/
def replaceItem (items : List CartItem) (item_id : Nat) (q : Int) : List CartItem :=
  items.map (fun it => if it.id == item_id then { it with quantity := q } else it)

/-- CartViewSet.add_item (src/orders/views.py lines 36-65): get_or_create the
cart of the caller, validate through the serializer, get_or_create the cart
item keyed on (cart, product_id) with the requested quantity as default; when
the row already existed, add the requested quantity, reject with
InsufficientStock when the sum exceeds the product stock (the row is not
saved on that path), else save. Returns the new cart lines and the next free
row identifier. -/
def add_item (ps : List Product) (cart : Option (List CartItem)) (next_id : Nat)
    (pid : Nat) (q : Int) : Except ApiError (List CartItem × Nat) :=
  let items := cart.getD []
  match cartItemValidate ps pid q with
  | some e => .error e
  | none =>
    match items.find? (fun it => it.product_id == pid) with
    | none => .ok (items ++ [⟨next_id, pid, q⟩], next_id + 1)
    | some it =>
      let newq := it.quantity + q
      if stockOf ps it.product_id < newq then .error .insufficientStock
      else .ok (replaceItem items it.id newq, next_id)

/-- CartViewSet.update_item (src/orders/views.py lines 67-86):
get_object_or_404 on the Cart row, read quantity with default 1, reject a
non-positive quantity, get_object_or_404 on the cart item, reject when the
quantity exceeds the product stock, else store the quantity. -/
def update_item (ps : List Product) (cart : Option (List CartItem))
    (item_id : Nat) (qOpt : Option Int) : Except ApiError (List CartItem) :=
  match cart with
  | none => .error .notFound
  | some items =>
    let q := qOpt.getD 1
    if q ≤ 0 then .error .invalidQuantity
    else
      match items.find? (fun it => it.id == item_id) with
      | none => .error .notFound
      | some it =>
        if stockOf ps it.product_id < q then .error .insufficientStock
        else .ok (replaceItem items it.id q)

/-- CartViewSet.remove_item (src/orders/views.py lines 88-97):
get_object_or_404 on the Cart row, get_object_or_404 on the item, delete it. -/
def remove_item (cart : Option (List CartItem)) (item_id : Nat) :
    Except ApiError (List CartItem) :=
  match cart with
  | none => .error .notFound
  | some items =>
    match items.find? (fun it => it.id == item_id) with
    | none => .error .notFound
    | some _ => .ok (items.filter (fun it => it.id != item_id))

/-- CartViewSet.clear (src/orders/views.py lines 99-104): get_object_or_404
on the Cart row, then delete every item of the cart. -/
def clear (cart : Option (List CartItem)) : Except ApiError (List CartItem) :=
  match cart with
  | none => .error .notFound
  | some _ => .ok []

/-- OrderViewSet.get_queryset (src/orders/views.py lines 110-113): every
order for an administrator, the orders owned by the caller otherwise. -/
def get_queryset (orders : List Order) (u : User) : List Order :=
  if u.is_admin then orders else orders.filter (fun o => o.user_id == u.id)

/-- Modelled from the spec: the transition relation OrderStatusUpdateSerializer
enforces (src/orders/serializers.py is not among the sources). Section 4.4:
pending to processing, processing to shipped, shipped to delivered, and
cancelled reachable from pending or processing; every other transition is
rejected with InvalidTransition. -/
def allowedTransition : OrderStatus → OrderStatus → Bool
  | .pending, .processing => true
  | .processing, .shipped => true
  | .shipped, .delivered => true
  | .pending, .cancelled => true
  | .processing, .cancelled => true
  | _, _ => false

/-- OrderViewSet.update_status (src/orders/views.py lines 130-140): reject a
caller whose is_admin flag is false with Forbidden before touching the order;
then fetch the order (404 when absent) and apply the serializer, modelled
from the spec as the allowedTransition relation; an illegal transition fails
with InvalidTransition. Returns the order table after the call and the
response. -/
def update_status (orders : List Order) (actor : User) (order_id : Nat)
    (new_status : OrderStatus) : List Order × Except ApiError Order :=
  if actor.is_admin = false then (orders, .error .forbidden)
  else
    match orders.find? (fun o => o.id == order_id) with
    | none => (orders, .error .notFound)
    | some o =>
      if allowedTransition o.status new_status then
        let updated : Order := { o with status := new_status }
        (orders.map (fun x => if x.id == order_id then updated else x), .ok updated)
      else (orders, .error .invalidTransition)

/-- Adjust the stock counter of every product whose id matches by the signed
delta (the single write path the Inventory Ledger owns). -/
def updateStock (ps : List Product) (pid : Nat) (d : Int) : List Product :=
  ps.map (fun p => if p.id == pid then { p with stock_quantity := p.stock_quantity + d } else p)

/-- Modelled from the spec: the Inventory Ledger reserve operation, section
4.1 (src/orders/serializers.py, which implements order creation, is not among
the sources): atomically check available_stock >= quantity; decrement and
succeed, or fail with no side effect. -/
def reserve (ps : List Product) (pid : Nat) (q : Int) : Option (List Product) :=
  match findProduct ps pid with
  | none => none
  | some p => if q ≤ p.stock_quantity then some (updateStock ps pid (-q)) else none

/-- Modelled from the spec: the Inventory Ledger release operation, section
4.1: atomically increment available_stock by the quantity; used only as the
compensating action of a partially failed multi-line reservation. -/
def release (ps : List Product) (pid : Nat) (q : Int) : List Product :=
  updateStock ps pid q

/-- Modelled from the spec: step 3 and step 4 of the Order Factory, section
4.3: reserve every cart line in turn; if any reserve fails, release every
line already reserved by this attempt and fail. The error value carries the
product table after the compensating releases. -/
def reserveAll (ps : List Product) : List CartItem → Except (List Product) (List Product)
  | [] => .ok ps
  | l :: rest =>
    match reserve ps l.product_id l.quantity with
    | none => .error ps
    | some ps1 =>
      match reserveAll ps1 rest with
      | .ok ps2 => .ok ps2
      | .error psf => .error (release psf l.product_id l.quantity)

/-- Insert a cart line into a list sorted by ascending product identifier. -/
def insertLine (l : CartItem) : List CartItem → List CartItem
  | [] => [l]
  | x :: xs => if l.product_id ≤ x.product_id then l :: x :: xs else x :: insertLine l xs

/-- Sort cart lines by ascending product identifier (the deterministic
reservation order of section 4.3 step 3). -/
def sortLines : List CartItem → List CartItem
  | [] => []
  | x :: xs => insertLine x (sortLines xs)

/-- Snapshot a cart line into an immutable OrderLine, capturing the current
product name and unit price (section 4.3 step 5). -/
def snapshotLine (ps : List Product) (l : CartItem) : OrderLine :=
  match findProduct ps l.product_id with
  | some p => ⟨l.product_id, p.name, p.price, l.quantity⟩
  | none => ⟨l.product_id, "", 0, l.quantity⟩

/-- Modelled from the spec: the Order Factory create_order, section 4.3
(OrderCreateSerializer in src/orders/serializers.py is not among the
sources). Load the cart of the user and fail with EmptyCart when it has no
lines; in one transaction reserve every line in ascending product-identifier
order; if any reserve fails, release the already reserved lines and fail
with InsufficientStock, leaving the cart untouched; otherwise snapshot every
line, compute the total, create the Order in status pending and clear the
cart. Returns the product table, the cart lines and the response. -/
def create_order (ps : List Product) (cart : List CartItem) (user_id order_id : Nat) :
    List Product × List CartItem × Except ApiError Order :=
  if cart.isEmpty then (ps, cart, .error .emptyCart)
  else
    let sorted := sortLines cart
    match reserveAll ps sorted with
    | .error psf => (psf, cart, .error .insufficientStock)
    | .ok ps2 =>
      let lines := sorted.map (snapshotLine ps)
      let total := (lines.map (fun l => l.unit_price * l.quantity)).sum
      (ps2, [], .ok ⟨order_id, user_id, .pending, lines, total⟩)

/-- Iterate add_item on one product: the whole sequence succeeds only when
every single call does (the harness for the algebraic property of spec
section 8 on repeated additions of the same product). -/
def add_seq (ps : List Product) (st : List CartItem × Nat) (pid : Nat) :
    List Int → Except ApiError (List CartItem × Nat)
  | [] => .ok st
  | q :: qs =>
    match add_item ps (some st.1) st.2 pid q with
    | .error e => .error e
    | .ok st2 => add_seq ps st2 pid qs

/-! Helper lemmas about the embedding. -/

theorem find?_replaceItem (p : CartItem → Bool)
    (hp : ∀ (x : CartItem) (r : Int), p { x with quantity := r } = p x) (q : Int) :
    ∀ (items : List CartItem) (it : CartItem), items.find? p = some it →
    (replaceItem items it.id q).find? p = some { it with quantity := q }
  | [], it, h => by simp at h
  | x :: xs, it, h => by
    simp only [replaceItem, List.map_cons]
    by_cases hx : p x = true
    · rw [List.find?_cons_of_pos _ hx] at h
      cases h
      rw [if_pos (by simp)]
      exact List.find?_cons_of_pos _ (by rw [hp]; exact hx)
    · rw [List.find?_cons_of_neg _ hx] at h
      have tail := find?_replaceItem p hp q xs it h
      by_cases hxid : (x.id == it.id) = true
      · rw [if_pos hxid]
        rw [List.find?_cons_of_neg _ (by rw [hp]; exact hx)]
        exact tail
      · rw [if_neg hxid]
        rw [List.find?_cons_of_neg _ hx]
        exact tail

theorem quantity_update_keeps_id (x : CartItem) (r : Int) (n : Nat) :
    (({ x with quantity := r } : CartItem).id == n) = (x.id == n) := rfl

theorem quantity_update_keeps_product (x : CartItem) (r : Int) (n : Nat) :
    (({ x with quantity := r } : CartItem).product_id == n) = (x.product_id == n) := rfl

theorem cartItemValidate_pass (ps : List Product) (pid : Nat) (q : Int) (p : Product)
    (hp : findProduct ps pid = some p) (hq : 0 < q) (hle : q ≤ p.stock_quantity) :
    cartItemValidate ps pid q = none := by
  unfold cartItemValidate check
  rw [if_neg (by omega), hp]
  simp [hle]

theorem cartItemValidate_insufficient (ps : List Product) (pid : Nat) (q : Int)
    (p : Product) (hp : findProduct ps pid = some p) (hq : 0 < q)
    (hgt : p.stock_quantity < q) : cartItemValidate ps pid q = some .insufficientStock := by
  unfold cartItemValidate check
  rw [if_neg (by omega), hp]
  have hn : ¬ q ≤ p.stock_quantity := by omega
  simp [hn]

theorem add_item_new_spec (ps : List Product) (cart : List CartItem) (next_id pid : Nat)
    (q : Int) (p : Product) (hp : findProduct ps pid = some p) (hq : 0 < q)
    (hnone : cart.find? (fun it => it.product_id == pid) = none) :
    (q ≤ p.stock_quantity →
      add_item ps (some cart) next_id pid q = .ok (cart ++ [⟨next_id, pid, q⟩], next_id + 1)) ∧
    (p.stock_quantity < q →
      add_item ps (some cart) next_id pid q = .error .insufficientStock) := by
  constructor <;> intro h
  · unfold add_item
    rw [cartItemValidate_pass ps pid q p hp hq h]
    simp only [Option.getD_some, hnone]
  · unfold add_item
    rw [cartItemValidate_insufficient ps pid q p hp hq h]

theorem add_item_existing_spec (ps : List Product) (cart : List CartItem)
    (next_id pid : Nat) (q : Int) (p : Product) (it : CartItem)
    (hp : findProduct ps pid = some p) (hq : 0 < q) (hq0 : 0 ≤ it.quantity)
    (hfind : cart.find? (fun x => x.product_id == pid) = some it) :
    (it.quantity + q ≤ p.stock_quantity →
      add_item ps (some cart) next_id pid q =
        .ok (replaceItem cart it.id (it.quantity + q), next_id)) ∧
    (p.stock_quantity < it.quantity + q →
      add_item ps (some cart) next_id pid q = .error .insufficientStock) := by
  have hpid : it.product_id = pid := by
    have := List.find?_some hfind
    simpa using this
  have hstock : stockOf ps it.product_id = p.stock_quantity := by
    rw [hpid]
    unfold stockOf
    rw [hp]
  constructor <;> intro h
  · unfold add_item
    rw [cartItemValidate_pass ps pid q p hp hq (by omega)]
    simp only [Option.getD_some, hfind]
    rw [if_neg (by omega)]
  · by_cases hc : q ≤ p.stock_quantity
    · unfold add_item
      rw [cartItemValidate_pass ps pid q p hp hq hc]
      simp only [Option.getD_some, hfind]
      rw [if_pos (by omega)]
    · unfold add_item
      rw [cartItemValidate_insufficient ps pid q p hp hq (by omega)]

theorem find?_append_single (p : CartItem → Bool) (x : CartItem) (hx : p x = true) :
    ∀ l : List CartItem, l.find? p = none → (l ++ [x]).find? p = some x
  | [], _ => by
    simp only [List.nil_append]
    exact List.find?_cons_of_pos _ hx
  | y :: ys, h => by
    have hy : ¬ p y = true := by
      intro hpy
      rw [List.find?_cons_of_pos _ hpy] at h
      cases h
    rw [List.find?_cons_of_neg _ hy] at h
    rw [List.cons_append, List.find?_cons_of_neg _ hy]
    exact find?_append_single p x hx ys h

theorem add_seq_accumulate (ps : List Product) (pid : Nat) (p : Product)
    (hp : findProduct ps pid = some p) :
    ∀ (qs : List Int) (cart : List CartItem) (next : Nat) (it : CartItem),
    cart.find? (fun x => x.product_id == pid) = some it →
    0 ≤ it.quantity →
    (∀ q ∈ qs, 0 < q) →
    (∀ n : Nat, it.quantity + (qs.take n).sum ≤ p.stock_quantity) →
    ∃ cart2, add_seq ps (cart, next) pid qs = .ok (cart2, next) ∧
      cart2.find? (fun x => x.product_id == pid) =
        some { it with quantity := it.quantity + qs.sum }
  | [], cart, next, it, hfind, _, _, _ => by
    refine ⟨cart, rfl, ?_⟩
    simpa using hfind
  | q :: qs, cart, next, it, hfind, hq0, hpos, hpre => by
    have hq : 0 < q := hpos q (List.mem_cons_self q qs)
    have h1 : it.quantity + q ≤ p.stock_quantity := by
      have h2 := hpre 1
      simpa using h2
    have step := (add_item_existing_spec ps cart next pid q p it hp hq hq0 hfind).1 h1
    have hfind2 := find?_replaceItem (fun x => x.product_id == pid)
      (fun x r => quantity_update_keeps_product x r pid) (it.quantity + q) cart it hfind
    have hpos2 : ∀ x ∈ qs, 0 < x := fun x hx => hpos x (List.mem_cons_of_mem q hx)
    have hpre2 : ∀ n : Nat,
        ({ it with quantity := it.quantity + q } : CartItem).quantity + (qs.take n).sum ≤
          p.stock_quantity := by
      intro n
      have h3 := hpre (n + 1)
      simp only [List.take_succ_cons, List.sum_cons] at h3
      simp only []
      omega
    obtain ⟨cart2, hrun, hfind3⟩ := add_seq_accumulate ps pid p hp qs
      (replaceItem cart it.id (it.quantity + q)) next { it with quantity := it.quantity + q }
      hfind2 (by simp only []; omega) hpos2 hpre2
    refine ⟨cart2, ?_, ?_⟩
    · unfold add_seq
      simp only [step]
      exact hrun
    · rw [hfind3]
      simp only [List.sum_cons, Option.some.injEq, CartItem.mk.injEq]
      refine ⟨trivial, trivial, by omega⟩

theorem find?_map_pred (f : Product → Product) (hf : ∀ x, (f x).id = x.id) (pid : Nat) :
    ∀ ps : List Product,
      List.find? (fun x => x.id == pid) (List.map f ps) =
        Option.map f (List.find? (fun x => x.id == pid) ps)
  | [] => rfl
  | p :: ps => by
    simp only [List.map_cons]
    by_cases hp : (p.id == pid) = true
    · have h1 : List.find? (fun x => x.id == pid) (f p :: List.map f ps) = some (f p) :=
        List.find?_cons_of_pos _ (by show ((f p).id == pid) = true; rw [hf p]; exact hp)
      have h2 : List.find? (fun x => x.id == pid) (p :: ps) = some p :=
        List.find?_cons_of_pos _ hp
      rw [h1, h2]
      rfl
    · have h1 : List.find? (fun x => x.id == pid) (f p :: List.map f ps) =
          List.find? (fun x => x.id == pid) (List.map f ps) :=
        List.find?_cons_of_neg _ (by show ¬ ((f p).id == pid) = true; rw [hf p]; exact hp)
      have h2 : List.find? (fun x => x.id == pid) (p :: ps) =
          List.find? (fun x => x.id == pid) ps :=
        List.find?_cons_of_neg _ hp
      rw [h1, h2]
      exact find?_map_pred f hf pid ps

theorem stockOf_eq (ps : List Product) (pid : Nat) (p : Product)
    (hp : findProduct ps pid = some p) : stockOf ps pid = p.stock_quantity := by
  unfold stockOf
  rw [hp]

theorem stockOf_updateStock_self (ps : List Product) (pid : Nat) (d : Int) (p : Product)
    (hp : findProduct ps pid = some p) :
    stockOf (updateStock ps pid d) pid = p.stock_quantity + d := by
  have hpp : (p.id == pid) = true := by
    have h2 := List.find?_some hp
    simpa using h2
  have key := find?_map_pred
    (fun p => if p.id == pid then { p with stock_quantity := p.stock_quantity + d } else p)
    (fun x => by by_cases h : (x.id == pid) = true <;> simp [h]) pid ps
  have hppid : p.id = pid := by simpa using hpp
  unfold findProduct at hp
  unfold stockOf findProduct updateStock
  rw [key, hp]
  simp [hppid]

theorem stockOf_updateStock_ne (ps : List Product) (pid pid2 : Nat) (d : Int)
    (hne : pid2 ≠ pid) : stockOf (updateStock ps pid d) pid2 = stockOf ps pid2 := by
  have key := find?_map_pred
    (fun p => if p.id == pid then { p with stock_quantity := p.stock_quantity + d } else p)
    (fun x => by by_cases h : (x.id == pid) = true <;> simp [h]) pid2 ps
  unfold stockOf findProduct updateStock
  rw [key]
  cases hp : List.find? (fun x => x.id == pid2) ps with
  | none => simp
  | some p2 =>
    have hp2 : (p2.id == pid2) = true := by
      have h2 := List.find?_some hp
      simpa using h2
    have hp2id : p2.id = pid2 := by simpa using hp2
    have hnp : ¬ p2.id = pid := by
      rw [hp2id]
      exact hne
    simp [hnp]

theorem updateStock_updateStock (pid : Nat) (d e : Int) :
    ∀ ps : List Product, updateStock (updateStock ps pid d) pid e = updateStock ps pid (d + e)
  | [] => rfl
  | p :: ps => by
    have tail := updateStock_updateStock pid d e ps
    unfold updateStock at tail ⊢
    simp only [List.map_cons]
    congr 1
    by_cases h : (p.id == pid) = true
    · simp [h, add_assoc]
    · simp [h]

theorem updateStock_zero (pid : Nat) : ∀ ps : List Product, updateStock ps pid 0 = ps
  | [] => rfl
  | p :: ps => by
    have tail := updateStock_zero pid ps
    unfold updateStock at tail ⊢
    simp only [List.map_cons]
    congr 1
    by_cases h : (p.id == pid) = true
    · cases p
      simp [h]
    · simp [h]

theorem release_reserve (ps ps1 : List Product) (pid : Nat) (q : Int)
    (h : reserve ps pid q = some ps1) : release ps1 pid q = ps := by
  unfold reserve at h
  split at h
  · cases h
  · split at h
    · cases h
      unfold release
      rw [updateStock_updateStock pid (-q) q ps]
      simpa using updateStock_zero pid ps
    · cases h

theorem reserve_facts (ps ps1 : List Product) (pid : Nat) (q : Int)
    (h : reserve ps pid q = some ps1) :
    q ≤ stockOf ps pid ∧ stockOf ps1 pid = stockOf ps pid - q ∧
      ∀ pid2, pid2 ≠ pid → stockOf ps1 pid2 = stockOf ps pid2 := by
  unfold reserve at h
  split at h
  · cases h
  next p hp =>
    split at h
    next hle =>
      cases h
      refine ⟨by rw [stockOf_eq ps pid p hp]; exact hle, ?_, ?_⟩
      · rw [stockOf_updateStock_self ps pid (-q) p hp, stockOf_eq ps pid p hp]
        omega
      · intro pid2 hne
        exact stockOf_updateStock_ne ps pid pid2 (-q) hne
    next hle => cases h

theorem reserveAll_error_eq :
    ∀ (lines : List CartItem) (ps psf : List Product),
    reserveAll ps lines = .error psf → psf = ps
  | [], ps, psf, h => Except.noConfusion h
  | l :: rest, ps, psf, h => by
    unfold reserveAll at h
    cases hr : reserve ps l.product_id l.quantity with
    | none =>
      simp only [hr] at h
      injection h with h2
      exact h2.symm
    | some ps1 =>
      simp only [hr] at h
      cases hra : reserveAll ps1 rest with
      | ok ps2 =>
        simp only [hra] at h
        exact Except.noConfusion h
      | error psf2 =>
        simp only [hra] at h
        injection h with h2
        have h3 : psf2 = ps1 := reserveAll_error_eq rest ps1 psf2 hra
        rw [← h2, h3]
        exact release_reserve ps ps1 l.product_id l.quantity hr

theorem reserveAll_ok_facts :
    ∀ (lines : List CartItem) (ps ps2 : List Product),
    (lines.map CartItem.product_id).Nodup →
    reserveAll ps lines = .ok ps2 →
    (∀ l ∈ lines, l.quantity ≤ stockOf ps l.product_id ∧
      stockOf ps2 l.product_id = stockOf ps l.product_id - l.quantity) ∧
    (∀ pid, pid ∉ lines.map CartItem.product_id → stockOf ps2 pid = stockOf ps pid)
  | [], ps, ps2, _, h => by
    cases h
    exact ⟨fun l hl => absurd hl (List.not_mem_nil l), fun pid _ => rfl⟩
  | l :: rest, ps, ps2, hnd, h => by
    unfold reserveAll at h
    cases hr : reserve ps l.product_id l.quantity with
    | none =>
      simp only [hr] at h
      exact Except.noConfusion h
    | some ps1 =>
      simp only [hr] at h
      cases hra : reserveAll ps1 rest with
      | error psf =>
        simp only [hra] at h
        exact Except.noConfusion h
      | ok ps2x =>
        simp only [hra] at h
        injection h with h2
        subst h2
        rw [List.map_cons, List.nodup_cons] at hnd
        obtain ⟨hnotin, hndrest⟩ := hnd
        obtain ⟨hr1, hr2, hr3⟩ := reserve_facts ps ps1 l.product_id l.quantity hr
        obtain ⟨ih1, ih2⟩ := reserveAll_ok_facts rest ps1 ps2x hndrest hra
        constructor
        · intro l2 hl2
          rcases List.mem_cons.mp hl2 with rfl | hl2mem
          · refine ⟨hr1, ?_⟩
            rw [ih2 l2.product_id hnotin, hr2]
          · have hne : l2.product_id ≠ l.product_id := by
              intro heq
              exact hnotin (heq ▸ List.mem_map_of_mem CartItem.product_id hl2mem)
            obtain ⟨a, b⟩ := ih1 l2 hl2mem
            rw [hr3 l2.product_id hne] at a
            refine ⟨a, ?_⟩
            rw [b, hr3 l2.product_id hne]
        · intro pid hpid
          have h1 : pid ≠ l.product_id := by
            intro heq
            exact hpid (by simp [heq])
          have h2 : pid ∉ rest.map CartItem.product_id := by
            intro hm
            exact hpid (List.mem_cons_of_mem _ hm)
          rw [ih2 pid h2, hr3 pid h1]

theorem insertLine_perm (l : CartItem) :
    ∀ xs : List CartItem, (insertLine l xs).Perm (l :: xs)
  | [] => List.Perm.refl _
  | x :: xs => by
    unfold insertLine
    by_cases h : l.product_id ≤ x.product_id
    · rw [if_pos h]
    · rw [if_neg h]
      exact List.Perm.trans (List.Perm.cons x (insertLine_perm l xs))
        (List.Perm.swap l x xs)

theorem sortLines_perm : ∀ xs : List CartItem, (sortLines xs).Perm xs
  | [] => List.Perm.refl _
  | x :: xs =>
    List.Perm.trans (insertLine_perm x (sortLines xs))
      (List.Perm.cons x (sortLines_perm xs))

/-! Theorems settling the claims. -/

/-- C5: clear is idempotent: one call on any existing cart empties it and
succeeds, and a second consecutive call on the now-empty cart also succeeds
with no error, leaving the cart empty. -/
theorem clear_idempotent (items : List CartItem) :
    clear (some items) = .ok ([] : List CartItem) ∧
    clear (some ([] : List CartItem)) = .ok ([] : List CartItem) :=
  ⟨rfl, rfl⟩

/-- C6 counterexample: for a caller with no existing cart, update_item,
remove_item and clear all fail with notFound (get_object_or_404 on the Cart
row), contradicting the claim that no cart operation fails merely because
the cart is absent. -/
theorem cart_absent_counterexample :
    update_item [] (none : Option (List CartItem)) 1 (some 1) = .error .notFound ∧
    remove_item (none : Option (List CartItem)) 1 = .error .notFound ∧
    clear (none : Option (List CartItem)) = .error .notFound :=
  ⟨rfl, rfl, rfl⟩

/-- C6 amended: only add_item creates the cart of the caller on demand (it
behaves on an absent cart exactly as on an existing empty cart); update_item,
remove_item and clear fail with notFound when the caller has no cart row. -/
theorem cart_on_demand_amended (ps : List Product) (next_id pid item_id : Nat)
    (q : Int) (qOpt : Option Int) :
    add_item ps none next_id pid q = add_item ps (some []) next_id pid q ∧
    update_item ps none item_id qOpt = .error .notFound ∧
    remove_item none item_id = .error .notFound ∧
    clear none = .error .notFound :=
  ⟨rfl, rfl, rfl, rfl⟩

/-- C8: update_status by a caller whose is_admin flag is false fails with
Forbidden and leaves the order table unchanged; the transition logic is
never reached. -/
theorem update_status_requires_admin (orders : List Order) (actor : User)
    (order_id : Nat) (new_status : OrderStatus) (h : actor.is_admin = false) :
    update_status orders actor order_id new_status = (orders, .error .forbidden) := by
  simp [update_status, h]

theorem update_status_requires_admin_witness :
    update_status [⟨1, 2, .pending, [], 0⟩] ⟨2, false⟩ 1 .processing =
      ([⟨1, 2, .pending, [], 0⟩], .error .forbidden) :=
  update_status_requires_admin [⟨1, 2, .pending, [], 0⟩] ⟨2, false⟩ 1 .processing rfl

/-- C9: listing orders returns every order for an administrator, and for a
caller whose is_admin flag is false exactly the orders that caller owns; no
foreign order appears in a non-admin listing. -/
theorem get_queryset_scoping (orders : List Order) (u : User) :
    (u.is_admin = true → get_queryset orders u = orders) ∧
    (u.is_admin = false → ∀ o : Order,
      o ∈ get_queryset orders u ↔ o ∈ orders ∧ o.user_id = u.id) := by
  refine ⟨fun h => by simp [get_queryset, h], fun h o => ?_⟩
  simp [get_queryset, h, List.mem_filter]

/-- C2: when the cart of the caller has no line for the product, add_item
creates a line with the requested quantity only when the stock check passes,
and fails with InsufficientStock, creating no line, whenever the requested
quantity exceeds the available stock (the check itself is modelled from the
spec, section 4.2, because CartItemSerializer is not among the sources). -/
theorem add_item_new_line_checked (ps : List Product) (cart : List CartItem)
    (next_id pid : Nat) (q : Int) (p : Product) (hp : findProduct ps pid = some p)
    (hq : 0 < q) (hnone : cart.find? (fun it => it.product_id == pid) = none) :
    (q ≤ p.stock_quantity →
      add_item ps (some cart) next_id pid q = .ok (cart ++ [⟨next_id, pid, q⟩], next_id + 1)) ∧
    (p.stock_quantity < q →
      add_item ps (some cart) next_id pid q = .error .insufficientStock) :=
  add_item_new_spec ps cart next_id pid q p hp hq hnone

theorem add_item_new_line_checked_witness :
    add_item [⟨1, "p", 10, 5⟩] (some []) 0 1 3 = .ok ([⟨0, 1, 3⟩], 1) ∧
    add_item [⟨1, "p", 10, 5⟩] (some []) 0 1 7 = .error .insufficientStock :=
  ⟨(add_item_new_line_checked [⟨1, "p", 10, 5⟩] [] 0 1 3 ⟨1, "p", 10, 5⟩ rfl
      (by decide) rfl).1 (by decide),
   (add_item_new_line_checked [⟨1, "p", 10, 5⟩] [] 0 1 7 ⟨1, "p", 10, 5⟩ rfl
      (by decide) rfl).2 (by decide)⟩

/-- C4: update_item fails with InvalidQuantity exactly when the requested
quantity is not positive, with NotFound exactly when (the quantity being
positive) the item is not in the cart of the caller, with InsufficientStock
exactly when (the item being present) the quantity exceeds the product
stock, and on success replaces the stored quantity with the requested one;
every error path returns before cart_item.save(), so the stored line is
unchanged on failure. -/
theorem update_item_error_taxonomy (ps : List Product) (items : List CartItem)
    (item_id : Nat) (q : Int) :
    (update_item ps (some items) item_id (some q) = .error .invalidQuantity ↔ q ≤ 0) ∧
    (update_item ps (some items) item_id (some q) = .error .notFound ↔
      0 < q ∧ items.find? (fun it => it.id == item_id) = none) ∧
    (update_item ps (some items) item_id (some q) = .error .insufficientStock ↔
      0 < q ∧ ∃ it, items.find? (fun x => x.id == item_id) = some it ∧
        stockOf ps it.product_id < q) ∧
    (∀ it, items.find? (fun x => x.id == item_id) = some it → 0 < q →
      q ≤ stockOf ps it.product_id →
      update_item ps (some items) item_id (some q) = .ok (replaceItem items it.id q)) := by
  unfold update_item
  simp only [Option.getD_some]
  split
  next h0 =>
    exact ⟨iff_of_true rfl h0,
      iff_of_false (by simp) (fun hh => absurd hh.1 (not_lt.mpr h0)),
      iff_of_false (by simp) (fun hh => absurd hh.1 (not_lt.mpr h0)),
      fun it _ hq _ => absurd hq (not_lt.mpr h0)⟩
  next h0 =>
    split
    next hfind =>
      refine ⟨iff_of_false (by simp) h0, iff_of_true rfl ⟨by omega, hfind⟩,
        iff_of_false (by simp) ?_, ?_⟩
      · rintro ⟨-, it, hit, -⟩
        rw [hfind] at hit
        cases hit
      · intro it hit
        rw [hfind] at hit
        cases hit
    next it hfind =>
      split
      next hs =>
        refine ⟨iff_of_false (by simp) h0, iff_of_false (by simp) ?_,
          iff_of_true rfl ⟨by omega, it, hfind, hs⟩, ?_⟩
        · rintro ⟨-, hnone⟩
          rw [hfind] at hnone
          cases hnone
        · intro it2 hit2 _ hle
          rw [hfind] at hit2
          cases hit2
          exact absurd hs (not_lt.mpr hle)
      next hs =>
        refine ⟨iff_of_false (by simp) h0, iff_of_false (by simp) ?_,
          iff_of_false (by simp) ?_, ?_⟩
        · rintro ⟨-, hnone⟩
          rw [hfind] at hnone
          cases hnone
        · rintro ⟨-, it2, hit2, hlt⟩
          rw [hfind] at hit2
          cases hit2
          exact hs hlt
        · intro it2 hit2 _ _
          rw [hfind] at hit2
          cases hit2
          rfl

/-- C3: when a line for the product already exists, add_item stores
existing.quantity + quantity when that sum is within the available stock and
otherwise fails with InsufficientStock leaving the stored line unchanged
(the error path returns before save); consequently a sequence of add_item
calls on one product whose prefix sums all stay within stock leaves the
line quantity equal to the sum of the added quantities. -/
theorem add_item_existing_accumulates (ps : List Product) (pid : Nat) (p : Product)
    (hp : findProduct ps pid = some p) :
    (∀ (cart : List CartItem) (next_id : Nat) (it : CartItem) (q : Int),
      cart.find? (fun x => x.product_id == pid) = some it → 0 < q → 0 ≤ it.quantity →
      (it.quantity + q ≤ p.stock_quantity →
        add_item ps (some cart) next_id pid q =
          .ok (replaceItem cart it.id (it.quantity + q), next_id)) ∧
      (p.stock_quantity < it.quantity + q →
        add_item ps (some cart) next_id pid q = .error .insufficientStock)) ∧
    (∀ (cart : List CartItem) (next_id : Nat) (q : Int) (qs : List Int),
      cart.find? (fun x => x.product_id == pid) = none →
      (∀ x ∈ q :: qs, 0 < x) →
      (∀ n : Nat, ((q :: qs).take n).sum ≤ p.stock_quantity) →
      ∃ cart2, add_seq ps (cart, next_id) pid (q :: qs) = .ok (cart2, next_id + 1) ∧
        cart2.find? (fun x => x.product_id == pid) =
          some ⟨next_id, pid, (q :: qs).sum⟩) := by
  constructor
  · intro cart next_id it q hfind hq hq0
    exact add_item_existing_spec ps cart next_id pid q p it hp hq hq0 hfind
  · intro cart next_id q qs hnone hpos hpre
    have hq : 0 < q := hpos q (List.mem_cons_self q qs)
    have hq1 : q ≤ p.stock_quantity := by simpa using hpre 1
    have first := (add_item_new_spec ps cart next_id pid q p hp hq hnone).1 hq1
    have hfind1 : (cart ++ [(⟨next_id, pid, q⟩ : CartItem)]).find?
        (fun x => x.product_id == pid) = some ⟨next_id, pid, q⟩ :=
      find?_append_single _ _ (by simp) cart hnone
    obtain ⟨cart2, hrun, hfind2⟩ := add_seq_accumulate ps pid p hp qs
      (cart ++ [⟨next_id, pid, q⟩]) (next_id + 1) ⟨next_id, pid, q⟩ hfind1
      (le_of_lt hq) (fun x hx => hpos x (List.mem_cons_of_mem q hx))
      (fun n => by
        have h3 := hpre (n + 1)
        simp only [List.take_succ_cons, List.sum_cons] at h3
        simpa using h3)
    refine ⟨cart2, ?_, ?_⟩
    · unfold add_seq
      simp only [first]
      exact hrun
    · rw [hfind2]
      simp [List.sum_cons]

theorem add_item_existing_accumulates_witness :
    add_item [⟨1, "p", 10, 5⟩] (some [⟨0, 1, 3⟩]) 1 1 2 = .ok ([⟨0, 1, 5⟩], 1) := by
  have h := ((add_item_existing_accumulates [⟨1, "p", 10, 5⟩] 1 ⟨1, "p", 10, 5⟩ rfl).1
    [⟨0, 1, 3⟩] 1 ⟨0, 1, 3⟩ 2 rfl (by decide) (by decide)).1 (by decide)
  rw [h]
  rfl

/-- C7: the order status state machine (modelled from the spec, section 4.4,
because OrderStatusUpdateSerializer is not among the sources) permits exactly
pending to processing, processing to shipped, shipped to delivered, pending
to cancelled and processing to cancelled; delivered and cancelled are
terminal, and an update_status attempt by an administrator on an order in a
terminal status fails with InvalidTransition, leaving the orders unchanged. -/
theorem order_status_state_machine :
    (∀ t, allowedTransition .delivered t = false ∧ allowedTransition .cancelled t = false) ∧
    (∀ s t, allowedTransition s t = true ↔
      ((s = .pending ∧ t = .processing) ∨ (s = .processing ∧ t = .shipped) ∨
       (s = .shipped ∧ t = .delivered) ∨ (s = .pending ∧ t = .cancelled) ∨
       (s = .processing ∧ t = .cancelled))) ∧
    (∀ (orders : List Order) (actor : User) (order_id : Nat) (o : Order) (t : OrderStatus),
      actor.is_admin = true → orders.find? (fun x => x.id == order_id) = some o →
      (o.status = .delivered ∨ o.status = .cancelled) →
      update_status orders actor order_id t = (orders, .error .invalidTransition)) := by
  refine ⟨fun t => by cases t <;> exact ⟨rfl, rfl⟩,
    fun s t => by cases s <;> cases t <;> simp [allowedTransition],
    ?_⟩
  intro orders actor order_id o t hadmin hfind hterm
  have hallow : allowedTransition o.status t = false := by
    rcases hterm with h | h <;> rw [h] <;> cases t <;> rfl
  unfold update_status
  rw [hadmin]
  simp [hfind, hallow]

/-- C10: update_item with no quantity in the payload defaults the quantity
to 1: it is never rejected as InvalidQuantity, and on success the stored
line quantity becomes 1 regardless of its previous value. -/
theorem update_item_default_one (ps : List Product) (items : List CartItem)
    (item_id : Nat) :
    update_item ps (some items) item_id none ≠ .error .invalidQuantity ∧
    (∀ it, items.find? (fun x => x.id == item_id) = some it →
      1 ≤ stockOf ps it.product_id →
      update_item ps (some items) item_id none = .ok (replaceItem items it.id 1) ∧
      (replaceItem items it.id 1).find? (fun x => x.id == item_id) =
        some { it with quantity := 1 }) := by
  constructor
  · unfold update_item
    simp only [Option.getD_none]
    norm_num
    cases hfind : items.find? (fun it => it.id == item_id) with
    | none => simp
    | some it =>
      by_cases hs : stockOf ps it.product_id < 1
      · simp [hs]
      · simp [hs]
  · intro it hfind hstock
    refine ⟨?_, find?_replaceItem _ (fun x r => quantity_update_keeps_id x r item_id) 1 items it hfind⟩
    unfold update_item
    simp only [Option.getD_none, hfind]
    rw [if_neg (by norm_num), if_neg (by omega)]

/-- C1: create_order (modelled from the spec, section 4.3, because
OrderCreateSerializer is not among the sources) is all-or-nothing: on
success the product stock of every cart line decreases by exactly the
quantity of that line, every other stock counter is untouched, each line was within the
available stock at commit time, and the cart is emptied; on any failure the
product table and the cart are exactly as before the call. The hypothesis
is the CartItem invariant that one cart holds at most one line per product. -/
theorem create_order_atomic (ps : List Product) (cart : List CartItem) (uid oid : Nat)
    (hnd : (cart.map CartItem.product_id).Nodup) :
    (∀ o : Order, (create_order ps cart uid oid).2.2 = .ok o →
      (create_order ps cart uid oid).2.1 = [] ∧
      (∀ l ∈ cart, l.quantity ≤ stockOf ps l.product_id ∧
        stockOf (create_order ps cart uid oid).1 l.product_id =
          stockOf ps l.product_id - l.quantity) ∧
      (∀ pid, pid ∉ cart.map CartItem.product_id →
        stockOf (create_order ps cart uid oid).1 pid = stockOf ps pid)) ∧
    (∀ e : ApiError, (create_order ps cart uid oid).2.2 = .error e →
      (create_order ps cart uid oid).1 = ps ∧ (create_order ps cart uid oid).2.1 = cart) := by
  have hperm := sortLines_perm cart
  have hndsorted : ((sortLines cart).map CartItem.product_id).Nodup :=
    ((hperm.map CartItem.product_id).nodup_iff).mpr hnd
  by_cases hemp : cart.isEmpty = true
  · have hco : create_order ps cart uid oid = (ps, cart, .error .emptyCart) := by
      unfold create_order
      rw [if_pos hemp]
    rw [hco]
    exact ⟨fun o ho => Except.noConfusion ho, fun e _ => ⟨rfl, rfl⟩⟩
  · cases hres : reserveAll ps (sortLines cart) with
    | error psf =>
      have hco : create_order ps cart uid oid = (psf, cart, .error .insufficientStock) := by
        unfold create_order
        rw [if_neg hemp]
        simp only [hres]
      rw [hco]
      have hpsf : psf = ps := reserveAll_error_eq (sortLines cart) ps psf hres
      subst hpsf
      exact ⟨fun o ho => Except.noConfusion ho, fun e _ => ⟨rfl, rfl⟩⟩
    | ok ps2 =>
      have hco : create_order ps cart uid oid =
          (ps2, [], .ok ⟨oid, uid, .pending, (sortLines cart).map (snapshotLine ps),
            (((sortLines cart).map (snapshotLine ps)).map
              (fun l => l.unit_price * l.quantity)).sum⟩) := by
        unfold create_order
        rw [if_neg hemp]
        simp only [hres]
      rw [hco]
      obtain ⟨h1, h2⟩ := reserveAll_ok_facts (sortLines cart) ps ps2 hndsorted hres
      refine ⟨fun o _ => ⟨rfl, ?_, ?_⟩, fun e he => Except.noConfusion he⟩
      · intro l hl
        exact h1 l (hperm.mem_iff.mpr hl)
      · intro pid hpid
        refine h2 pid ?_
        intro hmem
        exact hpid (((hperm.map CartItem.product_id).mem_iff).mp hmem)

theorem create_order_atomic_witness :
    (create_order [⟨1, "p", 10, 5⟩] [⟨0, 1, 5⟩] 7 9).2.1 = ([] : List CartItem) :=
  ((create_order_atomic [⟨1, "p", 10, 5⟩] [⟨0, 1, 5⟩] 7 9 (by simp)).1
    ⟨9, 7, .pending, [⟨1, "p", 10, 5⟩], 50⟩ rfl).1

end SmartShopping
